import Mathlib

/-!
Shallow embedding of the JARVIS traffic-inspector proxy core
(`internal/proxy/http_proxy.go`, `config/config.go`,
`internal/validator/validator.go`) and proofs about its behaviour.

Strings manipulated character-wise by the Go code are modelled as
`List Char`; Go `map[string][]string` headers are modelled as association
lists.  Fallible external calls (URL parsing, OpenAPI validation, the SQL
store) are inputs of the model, so every definition is executable.
-/

namespace Jarvis

/-- Character (byte) strings, as the Go code sees them. -/
abbrev Str := List Char

/-- Shorthand to write a `Str` from a string literal. -/
def str (s : String) : Str := s.toList

/-! ### Modelled Go standard-library string helpers -/

/-- `strings.Split(s, sep)` for a one-character separator. -/
def splitOn (sep : Char) : Str → List Str
  | [] => [[]]
  | c :: cs =>
    if c = sep then [] :: splitOn sep cs
    else
      match splitOn sep cs with
      | [] => [[c]]
      | s :: rest => (c :: s) :: rest

/-- `strings.Join` / joining segments back with a one-character separator. -/
def joinOn (sep : Char) : List Str → Str
  | [] => []
  | [s] => s
  | s :: rest => s ++ sep :: joinOn sep rest

/-- Whitespace set used by `strings.TrimSpace` (ASCII fragment). -/
def isSpaceChar (c : Char) : Bool :=
  c = ' ' || c = '\t' || c = '\n' || c = '\r'

/-- `strings.TrimSpace`. -/
def trimSpace (s : Str) : Str :=
  ((s.dropWhile isSpaceChar).reverse.dropWhile isSpaceChar).reverse

/-- `strings.HasPrefix(s, pre)`. -/
def hasPrefix (pre s : Str) : Bool := List.isPrefixOf pre s

/-- `strings.TrimPrefix(s, "/")`: drops one leading separator if present. -/
def trimPrefixChar (sep : Char) : Str → Str
  | [] => []
  | c :: cs => if c = sep then cs else c :: cs

/-- Index of the last occurrence of `c` in `s` (Go `last` in `net`). -/
def lastIndexOf (c : Char) (s : Str) : Option Nat :=
  let rec go : Str → Nat → Option Nat
    | [], _ => none
    | x :: xs, i =>
      match go xs (i + 1) with
      | some j => some j
      | none => if x = c then some i else none
  go s 0

/-- Index of the first occurrence of `c` in `s` (Go `bytealg.IndexByteString`). -/
def firstIndexOf (c : Char) (s : Str) : Option Nat :=
  let rec go : Str → Nat → Option Nat
    | [], _ => none
    | x :: xs, i => if x = c then some i else go xs (i + 1)
  go s 0

/--
`net.SplitHostPort(hostport)`, returning `some (host, port)` on success and
`none` on any of the error paths (missing port, too many colons, stray
brackets).  Follows the Go source: the last `':'` separates the port; a
leading `'['` starts a bracketed (IPv6) host.
-/
def splitHostPort (hp : Str) : Option (Str × Str) :=
  match lastIndexOf ':' hp with
  | none => none
  | some i =>
    if hp.head? = some '[' then
      match firstIndexOf ']' hp with
      | none => none
      | some e =>
        if e + 1 = hp.length then none          -- "[host]" with no port
        else if e + 1 = i then
          if (hp.drop 1).contains '[' || (hp.drop (e + 1)).contains ']' then none
          else some ((hp.drop 1).take (e - 1), hp.drop (i + 1))
        else none                                -- too many colons / missing port
    else
      let host := hp.take i
      if host.contains ':' then none             -- too many colons
      else if hp.contains '[' || hp.contains ']' then none
      else some (host, hp.drop (i + 1))

/-! ### Header maps

Go's `http.Header` is `map[string][]string`; the proxy only uses `Get`,
`Set` and `Add`, modelled over an association list of `(key, value)` pairs
(one pair per value, insertion order kept).
-/

/-- Header list: `(canonical key, value)` pairs. -/
abbrev Headers := List (String × Str)

/-- `Header.Get`: first value for the key, `""` when absent. -/
def hGet (h : Headers) (k : String) : Str :=
  match h.find? (fun kv => kv.1 = k) with
  | some kv => kv.2
  | none => []

/-- `Header.Set`: replace all values of the key with the single value. -/
def hSet (h : Headers) (k : String) (v : Str) : Headers :=
  h.filter (fun kv => kv.1 ≠ k) ++ [(k, v)]

/-- `Header.Add`: append a value for the key. -/
def hAdd (h : Headers) (k : String) (v : Str) : Headers := h ++ [(k, v)]

/-! ### Configuration (`config/config.go`) -/

/-- `config.TargetRoute`. -/
structure TargetRoute where
  pathPrefix : Str
  targetURL : String
  deriving Repr, DecidableEq

/-- `config.APIValidationConfig` (the fields the proxy handler reads). -/
structure APIValidationConfig where
  enabled : Bool
  validateRequests : Bool
  validateResponses : Bool
  continueOnValidation : Bool
  deriving Repr, DecidableEq

/-- `config.Config` (the fields the proxy handler reads). -/
structure Config where
  httpTargetURL : String
  targetRoutes : List TargetRoute
  recordingMode : Bool
  replayMode : Bool
  apiValidation : APIValidationConfig
  deriving Repr, DecidableEq

/--
`Config.GetTargetURL`: scan `TargetRoutes` in order, return the first route
whose `PathPrefix` is a prefix of `path`; fall back to `HTTPTargetURL`.
-/
def Config.getTargetURL (c : Config) (path : Str) : String :=
  match c.targetRoutes.find? (fun route => hasPrefix route.pathPrefix path) with
  | some route => route.targetURL
  | none => c.httpTargetURL

/-! ### Reverse-proxy director (`StartHTTPProxy` in `internal/proxy/http_proxy.go`) -/

/-- The `net/url.URL` fields the director reads and writes. -/
structure URL where
  scheme : String
  host : Str
  path : Str
  rawQuery : Str
  deriving Repr, DecidableEq

/-- The inbound-request state the director touches. -/
structure DirRequest where
  url : URL
  host : Str          -- `req.Host`
  remoteAddr : Str    -- `req.RemoteAddr`
  tls : Bool          -- `req.TLS != nil`
  headers : Headers
  deriving Repr, DecidableEq

/--
Body of the director after `url.Parse` of the resolved target succeeded:
overwrite the URL with the target's, restore the original path and raw
query, set `Host` to the target host, then set the forwarding headers.
-/
def directorBody (target : URL) (req : DirRequest) : DirRequest :=
  let originalPath := req.url.path
  let originalQuery := req.url.rawQuery
  let originalHost := req.host
  let url' := { target with path := originalPath, rawQuery := originalQuery }
  let headers1 :=
    match splitHostPort req.remoteAddr with
    | some (ip, _) =>
      let prior := hGet req.headers "X-Forwarded-For"
      if prior ≠ [] then
        hSet req.headers "X-Forwarded-For" (prior ++ str ", " ++ ip)
      else
        hSet req.headers "X-Forwarded-For" ip
    | none => req.headers
  let headers2 := hSet headers1 "X-Forwarded-Host" originalHost
  let headers3 :=
    hSet headers2 "X-Forwarded-Proto" (if req.tls then str "https" else str "http")
  { req with url := url', host := target.host, headers := headers3 }

/--
The full director: resolve the upstream via `Config.GetTargetURL`, parse it
(`parse` stands for `url.Parse`; on failure the director returns with the
request unmodified), then rewrite the request.
-/
def runDirector (parse : String → Option URL) (cfg : Config) (req : DirRequest) :
    DirRequest :=
  match parse (cfg.getTargetURL req.url.path) with
  | none => req
  | some target => directorBody target req

/-! ### Client-IP extraction (`getClientIP` in `internal/proxy/http_proxy.go`) -/

/-- The request fields `getClientIP` reads. -/
structure IPRequest where
  headers : Headers
  remoteAddr : Str
  deriving Repr, DecidableEq

/--
`getClientIP`: first comma-separated element of `X-Forwarded-For` when that
header is non-empty, else `X-Real-IP` when non-empty, else the host part of
`RemoteAddr` (the whole address when it has no host:port split).
-/
def getClientIP (r : IPRequest) : Str :=
  let ip := hGet r.headers "X-Forwarded-For"
  if ip ≠ [] then
    trimSpace ((splitOn ',' ip).headI)
  else
    let ip2 := hGet r.headers "X-Real-IP"
    if ip2 ≠ [] then
      trimSpace ip2
    else
      match splitHostPort r.remoteAddr with
      | some (host, _) => host
      | none => r.remoteAddr

/--
The claim's description of the stored `client_ip`, written from the claim's
own words (for comparison with `getClientIP`): the first comma-separated
element of `X-Forwarded-For` when non-empty, otherwise `X-Real-IP` when
non-empty, and only otherwise the host part of the TCP peer address, the
full peer address when it cannot be split into host and port.
-/
def clientIPSpec (r : IPRequest) : Str :=
  let xff := hGet r.headers "X-Forwarded-For"
  let xrip := hGet r.headers "X-Real-IP"
  if xff ≠ [] then trimSpace ((splitOn ',' xff).headI)
  else if xrip ≠ [] then trimSpace xrip
  else
    match splitHostPort r.remoteAddr with
    | some hp => hp.1
    | none => r.remoteAddr

/-! ### OpenAPI path matching (`NormalizePathForSpec` in `internal/validator/validator.go`) -/

/-- A template segment is a path parameter iff it is wrapped in `{` and `}`
(`strings.HasPrefix(part, "\x7b") && strings.HasSuffix(part, "\x7d")`). -/
def isParamSeg (seg : Str) : Bool :=
  hasPrefix (str "\x7b") seg && hasPrefix (str "\x7d") seg.reverse

/-- The slash-separated segments of a path as `NormalizePathForSpec` sees
them: split on `/` after trimming one leading `/`. -/
def pathSegs (path : Str) : List Str :=
  splitOn '/' (trimPrefixChar '/' path)

/-- The per-segment loop of `NormalizePathForSpec`: every template segment is
either a path parameter (matches anything) or equal to the concrete one;
structurally unequal lengths fail. -/
def segmentsMatch : List Str → List Str → Bool
  | [], [] => true
  | p :: ps, s :: ss => (isParamSeg s || p = s) && segmentsMatch ps ss
  | _, _ => false

/-- One template check of `NormalizePathForSpec`: split both paths on `/`
after trimming one leading `/`, require equal segment counts and
segment-wise match. -/
def pathMatchesSpec (path specPath : Str) : Bool :=
  let pathParts := pathSegs path
  let specParts := pathSegs specPath
  pathParts.length = specParts.length && segmentsMatch pathParts specParts

/-- `NormalizePathForSpec`: return the first spec path that matches (the Go
map iteration order is modelled by the list order), `none` when no template
matches. -/
def normalizePathForSpec (path : Str) (specPaths : List Str) : Option Str :=
  specPaths.find? (fun specPath => pathMatchesSpec path specPath)

/--
Substitution in a concrete path, written from the claim's words: replace its
`i`-th slash-separated segment (counted after trimming one leading `/`) by
`s` and re-assemble the path, keeping the leading `/` when the original had
one.
-/
def replaceSegment (path : Str) (i : Nat) (s : Str) : Str :=
  let core := joinOn '/' ((pathSegs path).set i s)
  if path.head? = some '/' then '/' :: core else core

/-! ### Record-id generation (`generateID` in the earlier proxy revision) -/

/-- Lower-case hex digit of a value `< 16`. -/
def hexDigit (n : Nat) : Char :=
  if n < 10 then Char.ofNat ('0'.toNat + n) else Char.ofNat ('a'.toNat + (n - 10))

/-- `hex.EncodeToString`: two lower-case hex digits per byte. -/
def hexEncode (bytes : List Nat) : Str :=
  bytes.flatMap (fun b => [hexDigit (b / 16 % 16), hexDigit (b % 16)])

/-- `fmt %x` applied to a string: hex of its bytes (ASCII model). -/
def hexOfAscii (s : Str) : Str :=
  hexEncode (s.map Char.toNat)

/--
`generateID` from the earlier proxy revision: `idCounter` is declared inside
the function, so `atomic.AddUint64(&idCounter, 1)` starts from zero on every
call and always yields `1`; the rest of the id is
`fmt.Sprintf("%d-%x", id, hex.EncodeToString(buf))` over the 4 random bytes
`buf` drawn from `crypto/rand` (an input of the model).
-/
def generateIDOld (randBytes : List Nat) : Str :=
  let idCounter : Nat := 0
  let id := idCounter + 1
  str (toString id) ++ str "-" ++ hexOfAscii (hexEncode randBytes)

/-- One id per call; each call draws fresh random bytes from the stream. -/
def generateIDs (randStream : List (List Nat)) : List Str :=
  randStream.map generateIDOld

/-! ### The request pipeline (`handleHTTPRequest` in `internal/proxy/http_proxy.go`)

External effects (the SQL store, the upstream call, OpenAPI validation
verdicts, `generateID`, the clock) are inputs of the model (`Env`); the
handler's decisions and outputs are computed from them exactly as the Go
control flow does.
-/

/-- `maxRequestSize = 32 * 1024 * 1024` (32 MiB). -/
def maxRequestSize : Nat := 32 * 1024 * 1024

/-- `streamThreshold = 1024 * 1024` (1 MiB). -/
def streamThreshold : Nat := 1024 * 1024

/-- The inbound-request fields the handler reads.  `contentLength` is Go's
`r.ContentLength`: the declared length, `-1` when unknown (chunked);
`body` is the actual inbound body bytes; `url` is `r.URL.String()`. -/
structure Request where
  method : String
  url : String
  urlPath : Str
  contentLength : Int
  body : Str
  headers : Headers
  remoteAddr : Str
  deriving Repr

/-- A row of the `traffic_records` table as the replayer sees it.
`responseHeaders` is the `json.Unmarshal` result of the stored header
string (`none` when it does not parse). -/
structure StoredRecord where
  timestamp : Nat
  protocol : String
  method : String
  url : String
  responseStatus : Nat
  responseHeaders : Option Headers
  responseBody : Str
  deriving Repr

/-- The upstream response the reverse proxy relays: status, headers, and
the body as the chunk sequence in which `ReverseProxy` writes it. -/
structure UpstreamResponse where
  status : Nat
  headers : Headers
  bodyChunks : List Str
  deriving Repr

/-- The persisted exchange record (`db.TrafficRecord` fields the handler
populates). -/
structure TrafficRecord where
  id : String
  timestamp : Nat
  protocol : String
  method : String
  url : String
  requestBody : Str
  responseStatus : Nat
  responseHeaders : Headers
  responseBody : Str
  clientIP : Str
  deriving Repr

/-- The handler's external collaborators for one exchange. -/
structure Env where
  validatorPresent : Bool
  requestValidationError : Option Str
  responseValidationFails : Bool
  store : List StoredRecord
  dbFail : Bool
  upstream : UpstreamResponse
  recordID : String
  now : Nat
  deriving Repr

/-- The response the client receives. -/
structure Response where
  status : Nat
  headers : Headers
  body : Str
  deriving Repr

/-- Observable side effects of one exchange. -/
structure Effects where
  sizeRejected : Bool
  upstreamContacted : Bool
  dbLookups : Nat
  savedRecord : Option TrafficRecord
  deriving Repr

/-- Client response plus effects. -/
structure HandleResult where
  response : Response
  effects : Effects
  deriving Repr

/-- Effects of an exchange terminated before replay/forwarding. -/
def noEffects (rejected : Bool) : Effects :=
  { sizeRejected := rejected, upstreamContacted := false, dbLookups := 0,
    savedRecord := none }

/-- `http.Error(w, msg, code)`: plain-text error response (writes
`msg + "\n"` and sets the plain-text content type on `w`'s headers). -/
def httpError (wHeaders : Headers) (msg : Str) (code : Nat) : Response :=
  { status := code,
    headers := hSet (hSet wHeaders "Content-Type" (str "text/plain; charset=utf-8"))
      "X-Content-Type-Options" (str "nosniff"),
    body := msg ++ ['\n'] }

/-- Add every `(key, value)` pair of `src` to `dst` (header copy by `Add`). -/
def hAddAll (dst src : Headers) : Headers :=
  src.foldl (fun acc kv => hAdd acc kv.1 kv.2) dst

/-- The `WHERE` clause of the replay query:
`protocol = 'HTTP' AND method = ? AND url = ?`. -/
def replayMatches (rec : StoredRecord) (m u : String) : Bool :=
  rec.protocol = "HTTP" && rec.method = m && rec.url = u

/-- One step of the `ORDER BY timestamp DESC LIMIT 1` selection: keep the
strictly more recent row (the earlier row on ties). -/
def pickStep (acc : Option StoredRecord) (rec : StoredRecord) : Option StoredRecord :=
  match acc with
  | none => some rec
  | some best => if best.timestamp < rec.timestamp then some rec else some best

/-- `ORDER BY timestamp DESC LIMIT 1` over the matching rows: a row of
maximal timestamp (the first such row in store order on ties). -/
def replayLookup (store : List StoredRecord) (m u : String) : Option StoredRecord :=
  (store.filter (fun rec => replayMatches rec m u)).foldl pickStep none

/-- `replayHTTPTraffic`: one store lookup; 500 on a read error, 404 on a
miss, otherwise the stored status/headers/body (headers added only when the
stored header JSON parses). -/
def replayHTTPTraffic (wHeaders : Headers) (store : List StoredRecord)
    (dbFail : Bool) (m u : String) : Response :=
  if dbFail then httpError wHeaders (str "Database error during replay") 500
  else
    match replayLookup store m u with
    | none => httpError wHeaders (str "No matching replay record found") 404
    | some rec =>
      let hdrs :=
        match rec.responseHeaders with
        | some hs => hAddAll wHeaders hs
        | none => wHeaders
      { status := rec.responseStatus, headers := hdrs, body := rec.responseBody }

/-- `responseRecorder` state: the wrapped writer's captured status and
headers, the capture buffer `body`, the streaming flag and watermark, the
running total `bytesWritten`, and `sent`, the bytes relayed to the client
through the underlying writer. -/
structure RecorderState where
  statusCode : Nat
  header : Headers
  body : Str
  streamMode : Bool
  maxBufferSize : Nat
  bytesWritten : Nat
  sent : Str
  deriving Repr

/-- `responseRecorder.Write`: count the bytes; in stream mode, or once the
buffer has reached `maxBufferSize`, capture at most the first 1024 bytes
(only into an empty buffer) and pass the chunk through; otherwise buffer
the chunk and pass it through. -/
def recWrite (st : RecorderState) (b : Str) : RecorderState :=
  let st1 := { st with bytesWritten := st.bytesWritten + b.length }
  if st1.streamMode = true ∨ (0 < st1.maxBufferSize ∧ st1.maxBufferSize ≤ st1.body.length) then
    let st2 :=
      if st1.body.length = 0 ∧ 0 < b.length then
        { st1 with body := st1.body ++ b.take 1024 }
      else st1
    { st2 with sent := st2.sent ++ b }
  else
    { st1 with body := st1.body ++ b, sent := st1.sent ++ b }

/-- `fmt.Sprintf("<streaming-body-size:%d>", n)`. -/
def sentinelReqBody (n : Int) : Str :=
  str "<streaming-body-size:" ++ str (toString n) ++ str ">"

/-- `fmt.Sprintf("<streaming-response-size:%d>", n)`. -/
def sentinelRespBody (n : Nat) : Str :=
  str "<streaming-response-size:" ++ str (toString n) ++ str ">"

/-- Writing the upstream body chunk sequence to a plain writer. -/
def concatChunks : List Str → Str
  | [] => []
  | c :: cs => c ++ concatChunks cs

/-- The handler after the request-validation step, with `wHeaders` the
headers already set on the client writer (the `request` validation marker
when set).  Covers the replay branch, the recorder branch and plain
passthrough, response validation, and persistence. -/
def afterValidation (cfg : Config) (env : Env) (r : Request) (clientIP : Str)
    (reqBodyBytes : Str) (isLargeBody : Bool) (wHeaders : Headers) : HandleResult :=
  if cfg.replayMode then
    { response := replayHTTPTraffic wHeaders env.store env.dbFail r.method r.url,
      effects := { sizeRejected := false, upstreamContacted := false,
                   dbLookups := 1, savedRecord := none } }
  else
    let needsRecording := cfg.recordingMode
    let needsValidation := env.validatorPresent && cfg.apiValidation.validateResponses
    if needsRecording || needsValidation then
      let rec0 : RecorderState :=
        { statusCode := 200, header := [], body := [], streamMode := isLargeBody,
          maxBufferSize := streamThreshold, bytesWritten := 0, sent := [] }
      -- proxy.ServeHTTP(recorder, r): ReverseProxy copies the upstream
      -- headers into recorder.Header() (which starts from the underlying
      -- writer's headers), calls WriteHeader(status) — sending the header
      -- snapshot to the client — then streams the body through Write.
      let rec1 := { rec0 with
        header := hAddAll wHeaders env.upstream.headers,
        statusCode := env.upstream.status }
      let clientHeaders := rec1.header
      let recF := env.upstream.bodyChunks.foldl recWrite rec1
      let recorded :=
        if (env.validatorPresent && cfg.apiValidation.validateResponses
            && !recF.streamMode && env.responseValidationFails) = true then
          { recF with
            header := hSet recF.header "X-API-Validation-Error" (str "response") }
        else recF
      let clientResp : Response :=
        { status := recF.statusCode, headers := clientHeaders, body := recF.sent }
      if cfg.recordingMode then
        let respBodyBytes :=
          if recorded.streamMode = true ∧ streamThreshold < recorded.body.length then
            sentinelRespBody recorded.body.length
          else recorded.body
        let recordOut : TrafficRecord :=
          { id := env.recordID, timestamp := env.now, protocol := "HTTP",
            method := r.method, url := r.url, requestBody := reqBodyBytes,
            responseStatus := recorded.statusCode,
            responseHeaders := recorded.header,
            responseBody := respBodyBytes, clientIP := clientIP }
        { response := clientResp,
          effects := { sizeRejected := false, upstreamContacted := true,
                       dbLookups := 0, savedRecord := some recordOut } }
      else
        { response := clientResp,
          effects := { sizeRejected := false, upstreamContacted := true,
                       dbLookups := 0, savedRecord := none } }
    else
      { response := { status := env.upstream.status,
                      headers := hAddAll wHeaders env.upstream.headers,
                      body := concatChunks env.upstream.bodyChunks },
        effects := { sizeRejected := false, upstreamContacted := true,
                     dbLookups := 0, savedRecord := none } }

/-- `handleHTTPRequest`: the 413 size gate on the declared `ContentLength`,
request-body capture (sentinel for declared-large bodies), the OpenAPI
request-validation step with its 400/continue policy, then the rest of the
pipeline. -/
def handleHTTPRequest (cfg : Config) (env : Env) (r : Request) : HandleResult :=
  if (maxRequestSize : Int) < r.contentLength then
    { response := httpError [] (str "Request too large") 413,
      effects := noEffects true }
  else
    let clientIP := getClientIP ⟨r.headers, r.remoteAddr⟩
    let wantBody : Bool :=
      (cfg.recordingMode || (env.validatorPresent && cfg.apiValidation.validateRequests))
        && decide (r.contentLength ≠ 0)
    let isLargeBody : Bool :=
      wantBody && decide ((streamThreshold : Int) < r.contentLength)
    let reqBodyBytes : Str :=
      if wantBody then
        if (streamThreshold : Int) < r.contentLength then
          sentinelReqBody r.contentLength
        else
          r.body.take maxRequestSize
      else []
    let reqValErr : Option Str :=
      if env.validatorPresent && cfg.apiValidation.validateRequests && !isLargeBody then
        env.requestValidationError
      else none
    match reqValErr with
    | some err =>
      if !cfg.apiValidation.continueOnValidation then
        { response := httpError [] (str "Request validation error: " ++ err) 400,
          effects := noEffects false }
      else
        afterValidation cfg env r clientIP reqBodyBytes isLargeBody
          (hSet [] "X-API-Validation-Error" (str "request"))
    | none => afterValidation cfg env r clientIP reqBodyBytes isLargeBody []

/-! ### Concrete instances used for witnesses and counterexamples -/

/-- Two overlapping routes: the shorter prefix is defined first. -/
def routedCfg : Config :=
  { httpTargetURL := "http://fallback:1"
    targetRoutes := [⟨str "/api", "http://a:1"⟩, ⟨str "/api/v1", "http://b:2"⟩]
    recordingMode := false
    replayMode := false
    apiValidation := ⟨false, false, false, false⟩ }

/-- Replay-mode configuration. -/
def replayCfg : Config :=
  { httpTargetURL := "http://fallback:1", targetRoutes := []
    recordingMode := false, replayMode := true
    apiValidation := ⟨false, false, false, false⟩ }

/-- Record-mode configuration without validation. -/
def recordCfg : Config :=
  { httpTargetURL := "http://fallback:1", targetRoutes := []
    recordingMode := true, replayMode := false
    apiValidation := ⟨false, false, false, false⟩ }

/-- Passthrough configuration without validation. -/
def passCfg : Config :=
  { httpTargetURL := "http://fallback:1", targetRoutes := []
    recordingMode := false, replayMode := false
    apiValidation := ⟨false, false, false, false⟩ }

/-- Record mode with request and response validation, continuing on failure. -/
def validatingCfg : Config :=
  { httpTargetURL := "http://fallback:1", targetRoutes := []
    recordingMode := true, replayMode := false
    apiValidation := ⟨true, true, true, true⟩ }

/-- A plain 200 upstream answer. -/
def okUpstream : UpstreamResponse :=
  ⟨200, [("Content-Type", str "application/json")], [str "hello"]⟩

/-- Two stored records for `GET /x`; the second is more recent. -/
def seededStore : List StoredRecord :=
  [⟨5, "HTTP", "GET", "/x", 200, some [("A", str "1")], str "old"⟩,
   ⟨9, "HTTP", "GET", "/x", 201, some [("B", str "2")], str "newer"⟩]

/-- Environment for the replay witness. -/
def replayEnv : Env :=
  { validatorPresent := false, requestValidationError := none
    responseValidationFails := false, store := seededStore, dbFail := false
    upstream := okUpstream, recordID := "id-1", now := 7 }

/-- Environment for the validation witness: the request fails OpenAPI
validation and so does the response. -/
def validationEnv : Env :=
  { validatorPresent := true, requestValidationError := some (str "boom")
    responseValidationFails := true, store := [], dbFail := false
    upstream := okUpstream, recordID := "id-1", now := 7 }

/-- Environment with no external failures. -/
def plainEnv : Env :=
  { validatorPresent := false, requestValidationError := none
    responseValidationFails := false, store := [], dbFail := false
    upstream := okUpstream, recordID := "id-1", now := 7 }

/-- A small `GET /x` request. -/
def getXReq : Request :=
  { method := "GET", url := "/x", urlPath := str "/x", contentLength := 0
    body := [], headers := [], remoteAddr := str "1.1.1.1:80" }

/-- A chunked request (`ContentLength = -1`) whose actual body exceeds the
32 MiB limit. -/
def chunkedBigReq : Request :=
  { method := "POST", url := "/x", urlPath := str "/x", contentLength := -1
    body := List.replicate (maxRequestSize + 1) 'a', headers := []
    remoteAddr := str "1.1.1.1:80" }

/-- A request declaring a Content-Length over the 32 MiB limit. -/
def declaredBigReq : Request :=
  { method := "POST", url := "/x", urlPath := str "/x"
    contentLength := 34 * 1024 * 1024, body := [], headers := []
    remoteAddr := str "1.1.1.1:80" }

/-- An upstream response of two 1 MiB chunks: total size 2 MiB, above the
streaming watermark. -/
def bigUpstream : UpstreamResponse :=
  ⟨200, [], [List.replicate streamThreshold 'a', List.replicate streamThreshold 'a']⟩

/-- Environment delivering the 2 MiB upstream response. -/
def bigRespEnv : Env :=
  { validatorPresent := false, requestValidationError := none
    responseValidationFails := false, store := [], dbFail := false
    upstream := bigUpstream, recordID := "id-1", now := 7 }

/-- A URL parser stub resolving the sample upstream. -/
def dirParse : String → Option URL :=
  fun s => if s = "http://a:1" then some ⟨"http", str "a:1", [], []⟩ else none

/-- An inbound TLS request that already carries an `X-Forwarded-For`. -/
def xffReq : DirRequest :=
  { url := ⟨"inbound", str "client.example", str "/api/v1/x", str "y=1"⟩
    host := str "client.example", remoteAddr := str "9.9.9.9:123", tls := true
    headers := [("X-Forwarded-For", str "10.0.0.1")] }

/-! ## Helper lemmas -/

theorem find?_append_of_none {α} (p : α → Bool) (l₁ l₂ : List α)
    (h : ∀ a ∈ l₁, p a = false) : (l₁ ++ l₂).find? p = l₂.find? p := by
  induction l₁ with
  | nil => rfl
  | cons a l ih =>
    have ha : p a = false := h a (by simp)
    simp only [List.cons_append, List.find?, ha]
    exact ih fun x hx => h x (by simp [hx])

theorem hAddAll_eq_append (dst src : Headers) : hAddAll dst src = dst ++ src := by
  induction src generalizing dst with
  | nil => simp [hAddAll]
  | cons kv rest ih =>
    simp only [hAddAll, List.foldl_cons] at *
    rw [ih]
    simp [hAdd]

theorem hGet_hSet_self (h : Headers) (k : String) (v : Str) :
    hGet (hSet h k v) k = v := by
  unfold hGet hSet
  rw [find?_append_of_none]
  · simp [List.find?]
  · intro kv hkv
    have := List.of_mem_filter hkv
    simpa using this

theorem find?_filter_of_imp {α} (p q : α → Bool) (l : List α)
    (himp : ∀ a, p a = true → q a = true) :
    (l.filter q).find? p = l.find? p := by
  induction l with
  | nil => rfl
  | cons a rest ih =>
    rw [List.filter_cons]
    by_cases hq : q a = true
    · rw [if_pos hq]
      by_cases hp : p a = true
      · rw [List.find?_cons_of_pos _ hp, List.find?_cons_of_pos _ hp]
      · rw [List.find?_cons_of_neg _ hp, List.find?_cons_of_neg _ hp, ih]
    · have hp : ¬p a = true := fun hpa => hq (himp a hpa)
      rw [if_neg hq, List.find?_cons_of_neg _ hp, ih]

theorem hGet_hSet_ne (h : Headers) (k k' : String) (v : Str) (hne : k ≠ k') :
    hGet (hSet h k' v) k = hGet h k := by
  unfold hGet hSet
  rw [List.find?_append,
    find?_filter_of_imp (fun kv => kv.1 = k) (fun kv => kv.1 ≠ k') h
      (by intro a ha; simp at ha ⊢; rw [ha]; exact hne)]
  have : List.find? (fun kv => kv.1 = k) [(k', v)] = none := by
    simp [List.find?, Ne.symm hne]
  rw [this]
  cases List.find? (fun kv => kv.1 = k) h <;> rfl

/-! ## C2 — route resolution: first matching prefix in definition order -/

/--
C2: for every inbound path, `GetTargetURL` returns the target of the first
route in configured order whose `path_prefix` is a prefix of the path, and
the default upstream when no route matches; consequently when two routes
both match, the one defined earlier wins regardless of prefix length.
-/
theorem getTargetURL_first_match (cfg : Config) (p : Str) :
    (∀ l₁ rt l₂, cfg.targetRoutes = l₁ ++ rt :: l₂ →
        hasPrefix rt.pathPrefix p = true →
        (∀ rt' ∈ l₁, hasPrefix rt'.pathPrefix p = false) →
        cfg.getTargetURL p = rt.targetURL) ∧
    ((∀ rt ∈ cfg.targetRoutes, hasPrefix rt.pathPrefix p = false) →
        cfg.getTargetURL p = cfg.httpTargetURL) := by
  constructor
  · intro l₁ rt l₂ hsplit hmatch hnone
    unfold Config.getTargetURL
    rw [hsplit, find?_append_of_none _ _ _ hnone]
    simp [List.find?, hmatch]
  · intro hnone
    unfold Config.getTargetURL
    have : cfg.targetRoutes.find? (fun route => hasPrefix route.pathPrefix p) = none := by
      rw [List.find?_eq_none]
      intro rt hrt
      simp [hnone rt hrt]
    rw [this]

/-- Witness for C2 at a concrete configuration: `/api` is defined before the
longer `/api/v1`, and `/api/v1/x` resolves to the earlier route's target. -/
theorem getTargetURL_first_match_witness :
    routedCfg.targetRoutes
        = [] ++ (⟨str "/api", "http://a:1"⟩ : TargetRoute) :: [⟨str "/api/v1", "http://b:2"⟩] ∧
    hasPrefix (str "/api") (str "/api/v1/x") = true ∧
    routedCfg.getTargetURL (str "/api/v1/x") = "http://a:1" := by
  refine ⟨by decide, by decide, ?_⟩
  exact (getTargetURL_first_match routedCfg (str "/api/v1/x")).1
    [] ⟨str "/api", "http://a:1"⟩ [⟨str "/api/v1", "http://b:2"⟩]
    (by decide) (by decide) (by intro rt' h; cases h)

/-! ## C10 — stored client_ip derivation -/

/--
C10: the client IP stored in a record is computed from client-controllable
headers before the transport peer: the first comma-separated element of
`X-Forwarded-For` when non-empty, else `X-Real-IP` when non-empty, and only
otherwise the host part of the peer address (the full address when it does
not split into host and port).  `getClientIP` coincides with that
description (`clientIPSpec`) on every request.
-/
theorem getClientIP_eq_spec (r : IPRequest) : getClientIP r = clientIPSpec r := by
  unfold getClientIP clientIPSpec
  rcases hsplit : splitHostPort r.remoteAddr with _ | ⟨host, port⟩ <;>
    simp [hsplit]

/-! ## C7 — the director preserves path and raw query -/

/--
C7: when the resolved upstream URL parses, the director rewrites only the
URL scheme and host and the `Host` header (set to the upstream host): the
outbound path and raw query are exactly the inbound ones.
-/
theorem director_preserves_path_query
    (parse : String → Option URL) (cfg : Config) (req : DirRequest) (target : URL)
    (hparse : parse (cfg.getTargetURL req.url.path) = some target) :
    (runDirector parse cfg req).url.path = req.url.path ∧
    (runDirector parse cfg req).url.rawQuery = req.url.rawQuery ∧
    (runDirector parse cfg req).url.scheme = target.scheme ∧
    (runDirector parse cfg req).url.host = target.host ∧
    (runDirector parse cfg req).host = target.host := by
  unfold runDirector
  rw [hparse]
  unfold directorBody
  rcases splitHostPort req.remoteAddr with _ | ⟨ip, port⟩ <;> simp

/-- Witness for C7: a concrete request through a concrete route and parser
keeps `/api/v1/x?y=1` intact while scheme, host and `Host` move to the
upstream. -/
theorem director_preserves_path_query_witness :
    (fun s => if s = "http://a:1" then some (⟨"http", str "a:1", [], []⟩ : URL) else none)
        (routedCfg.getTargetURL (str "/api/v1/x")) = some ⟨"http", str "a:1", [], []⟩ ∧
    (runDirector
        (fun s => if s = "http://a:1" then some ⟨"http", str "a:1", [], []⟩ else none)
        routedCfg
        ⟨⟨"inbound", str "client.example", str "/api/v1/x", str "y=1"⟩,
          str "client.example", str "9.9.9.9:123", false, []⟩).url.path
      = str "/api/v1/x" := by
  refine ⟨by decide, ?_⟩
  exact (director_preserves_path_query
    (fun s => if s = "http://a:1" then some ⟨"http", str "a:1", [], []⟩ else none)
    routedCfg
    ⟨⟨"inbound", str "client.example", str "/api/v1/x", str "y=1"⟩,
      str "client.example", str "9.9.9.9:123", false, []⟩
    ⟨"http", str "a:1", [], []⟩ (by decide)).1

/-! ### Lemmas about `splitOn` -/

theorem splitOn_ne_nil (sep : Char) (s : Str) : splitOn sep s ≠ [] := by
  induction s with
  | nil => simp [splitOn]
  | cons c cs ih =>
    rw [splitOn]
    by_cases h : c = sep
    · rw [if_pos h]; simp
    · rw [if_neg h]
      rcases hr : splitOn sep cs with _ | ⟨s₀, rest⟩
      · exact absurd hr ih
      · simp

theorem getLast?_cons_of_ne_nil {α} (a : α) (l : List α) (h : l ≠ []) :
    (a :: l).getLast? = l.getLast? := by
  cases l with
  | nil => exact absurd rfl h
  | cons b t => exact List.getLast?_cons_cons

theorem splitOn_no_sep (sep : Char) (s : Str) (h : sep ∉ s) :
    splitOn sep s = [s] := by
  induction s with
  | nil => rfl
  | cons c cs ih =>
    have hc : ¬c = sep := fun hcs => h (hcs ▸ List.mem_cons_self c cs)
    have hcs : sep ∉ cs := fun hm => h (List.mem_cons_of_mem c hm)
    rw [splitOn, if_neg hc, ih hcs]

theorem splitOn_length_ge_two (sep : Char) (zs : Str) (h : sep ∈ zs) :
    2 ≤ (splitOn sep zs).length := by
  induction zs with
  | nil => cases h
  | cons c cs ih =>
    rw [splitOn]
    by_cases hc : c = sep
    · rw [if_pos hc]
      have h1 : 0 < (splitOn sep cs).length :=
        List.length_pos.mpr (splitOn_ne_nil sep cs)
      simp only [List.length_cons]
      omega
    · rw [if_neg hc]
      have hmem : sep ∈ cs := by
        rcases List.mem_cons.mp h with h1 | h2
        · exact absurd h1.symm hc
        · exact h2
      rcases hr : splitOn sep cs with _ | ⟨s₀, rest⟩
      · exact absurd hr (splitOn_ne_nil _ _)
      · have h2 := ih hmem
        rw [hr] at h2
        simpa using h2

theorem getLast?_splitOn_sep (sep : Char) (xs ys : Str) (h : sep ∉ ys) :
    (splitOn sep (xs ++ sep :: ys)).getLast? = some ys := by
  induction xs with
  | nil =>
    rw [List.nil_append, splitOn, if_pos rfl, splitOn_no_sep sep ys h]
    rfl
  | cons c xs ih =>
    rw [List.cons_append, splitOn]
    by_cases hc : c = sep
    · rw [if_pos hc, getLast?_cons_of_ne_nil _ _ (splitOn_ne_nil _ _)]
      exact ih
    · rw [if_neg hc]
      rcases hr : splitOn sep (xs ++ sep :: ys) with _ | ⟨s₀, rest⟩
      · exact absurd hr (splitOn_ne_nil _ _)
      · have hlen : 2 ≤ (splitOn sep (xs ++ sep :: ys)).length :=
          splitOn_length_ge_two sep _
            (List.mem_append.mpr (Or.inr (List.mem_cons_self sep ys)))
        rw [hr] at hlen
        have hrest : rest ≠ [] := by
          rcases rest with _ | _
          · simp at hlen
          · simp
        rw [getLast?_cons_of_ne_nil _ _ hrest,
          ← getLast?_cons_of_ne_nil s₀ _ hrest, ← hr]
        exact ih

theorem trimSpace_cons_space (s : Str) : trimSpace (' ' :: s) = trimSpace s := by
  unfold trimSpace
  rw [List.dropWhile_cons_of_pos (by decide)]

/-! ## C3 — forwarding headers set by the director -/

/--
C3: when the resolved upstream parses and the peer address splits into
host and port, the director sets `X-Forwarded-Host` to the inbound `Host`,
`X-Forwarded-Proto` to `https` exactly when the inbound connection was TLS,
and appends the peer IP to any prior `X-Forwarded-For` value so that the
peer IP is the last comma-separated element of the outbound header.
-/
theorem director_forwarding_headers
    (parse : String → Option URL) (cfg : Config) (req : DirRequest) (target : URL)
    (ip port : Str)
    (hparse : parse (cfg.getTargetURL req.url.path) = some target)
    (hsplit : splitHostPort req.remoteAddr = some (ip, port))
    (hip : ',' ∉ ip) :
    hGet (runDirector parse cfg req).headers "X-Forwarded-Host" = req.host ∧
    hGet (runDirector parse cfg req).headers "X-Forwarded-Proto"
      = (if req.tls then str "https" else str "http") ∧
    (hGet req.headers "X-Forwarded-For" ≠ [] →
      hGet (runDirector parse cfg req).headers "X-Forwarded-For"
        = hGet req.headers "X-Forwarded-For" ++ str ", " ++ ip) ∧
    (hGet req.headers "X-Forwarded-For" = [] →
      hGet (runDirector parse cfg req).headers "X-Forwarded-For" = ip) ∧
    ((splitOn ',' (hGet (runDirector parse cfg req).headers "X-Forwarded-For")).map
        trimSpace).getLast? = some (trimSpace ip) := by
  unfold runDirector
  rw [hparse]
  unfold directorBody
  rw [hsplit]
  simp only []
  have hxff :
      hGet
        (hSet
          (hSet
            (if hGet req.headers "X-Forwarded-For" ≠ [] then
              hSet req.headers "X-Forwarded-For"
                (hGet req.headers "X-Forwarded-For" ++ str ", " ++ ip)
            else hSet req.headers "X-Forwarded-For" ip)
            "X-Forwarded-Host" req.host)
          "X-Forwarded-Proto" (if req.tls then str "https" else str "http"))
        "X-Forwarded-For"
      = (if hGet req.headers "X-Forwarded-For" ≠ [] then
          hGet req.headers "X-Forwarded-For" ++ str ", " ++ ip
        else ip) := by
    rw [hGet_hSet_ne _ _ _ _ (by decide), hGet_hSet_ne _ _ _ _ (by decide)]
    by_cases hprior : hGet req.headers "X-Forwarded-For" ≠ []
    · rw [if_pos hprior, if_pos hprior, hGet_hSet_self]
    · rw [if_neg hprior, if_neg hprior, hGet_hSet_self]
  refine ⟨?_, ?_, ?_, ?_, ?_⟩
  · rw [hGet_hSet_ne _ _ _ _ (by decide), hGet_hSet_self]
  · rw [hGet_hSet_self]
  · intro hprior
    rw [hxff, if_pos hprior]
  · intro hprior
    rw [hxff, if_neg (by simp [hprior])]
  · rw [hxff]
    by_cases hprior : hGet req.headers "X-Forwarded-For" ≠ []
    · rw [if_pos hprior]
      have harr : hGet req.headers "X-Forwarded-For" ++ str ", " ++ ip
          = hGet req.headers "X-Forwarded-For" ++ ',' :: (' ' :: ip) := by
        rw [List.append_assoc]
        rfl
      have hnosep : ',' ∉ (' ' :: ip) := by
        intro hmem
        rcases List.mem_cons.mp hmem with h1 | h2
        · exact absurd h1 (by decide)
        · exact hip h2
      rw [harr, List.getLast?_map, getLast?_splitOn_sep ',' _ (' ' :: ip) hnosep]
      simp [trimSpace_cons_space]
    · rw [if_neg hprior, splitOn_no_sep ',' ip hip]
      rfl

/-- Witness for C3: a concrete TLS request with a prior `X-Forwarded-For`
value `10.0.0.1` and peer `9.9.9.9:123`; after the director the peer IP is
the last comma-separated element. -/
theorem director_forwarding_headers_witness :
    splitHostPort (str "9.9.9.9:123") = some (str "9.9.9.9", str "123") ∧
    ((splitOn ','
        (hGet (runDirector dirParse routedCfg xffReq).headers "X-Forwarded-For")).map
        trimSpace).getLast? = some (trimSpace (str "9.9.9.9")) :=
  ⟨by decide,
   (director_forwarding_headers dirParse routedCfg xffReq
      ⟨"http", str "a:1", [], []⟩ (str "9.9.9.9") (str "123")
      (by decide) (by decide) (by decide)).2.2.2.2⟩

/-! ### Lemmas about `joinOn` and path segments -/

theorem splitOn_append_sep (sep : Char) (xs ys : Str) (h : sep ∉ xs) :
    splitOn sep (xs ++ sep :: ys) = xs :: splitOn sep ys := by
  induction xs with
  | nil => rw [List.nil_append, splitOn, if_pos rfl]
  | cons c cs ih =>
    have hc : ¬c = sep := fun hcs => h (hcs ▸ List.mem_cons_self c cs)
    have hcs : sep ∉ cs := fun hm => h (List.mem_cons_of_mem c hm)
    rw [List.cons_append, splitOn, if_neg hc, ih hcs]

theorem splitOn_sep_not_mem (sep : Char) (s : Str) :
    ∀ seg ∈ splitOn sep s, sep ∉ seg := by
  induction s with
  | nil =>
    intro seg hseg
    simp only [splitOn, List.mem_singleton] at hseg
    subst hseg
    simp
  | cons c cs ih =>
    intro seg hseg
    rw [splitOn] at hseg
    by_cases hc : c = sep
    · rw [if_pos hc] at hseg
      rcases List.mem_cons.mp hseg with h1 | h2
      · subst h1; simp
      · exact ih seg h2
    · rw [if_neg hc] at hseg
      rcases hr : splitOn sep cs with _ | ⟨s₀, rest⟩
      · exact absurd hr (splitOn_ne_nil _ _)
      · rw [hr] at hseg
        rcases List.mem_cons.mp hseg with h1 | h2
        · subst h1
          intro hmem
          rcases List.mem_cons.mp hmem with h3 | h4
          · exact hc h3.symm
          · exact ih s₀ (hr ▸ List.mem_cons_self s₀ rest) h4
        · exact ih seg (hr ▸ List.mem_cons_of_mem s₀ h2)

theorem splitOn_joinOn (sep : Char) (ss : List Str) (hne : ss ≠ [])
    (h : ∀ seg ∈ ss, sep ∉ seg) : splitOn sep (joinOn sep ss) = ss := by
  induction ss with
  | nil => exact absurd rfl hne
  | cons a rest ih =>
    cases rest with
    | nil =>
      show splitOn sep (joinOn sep [a]) = [a]
      rw [joinOn, splitOn_no_sep sep a (h a (List.mem_cons_self a []))]
    | cons b t =>
      show splitOn sep (a ++ sep :: joinOn sep (b :: t)) = a :: b :: t
      rw [splitOn_append_sep sep a _ (h a (List.mem_cons_self a _)),
        ih (by simp) (fun seg hseg => h seg (List.mem_cons_of_mem a hseg))]

theorem head?_joinOn_cons (sep : Char) (a : Str) (rest : List Str) (ha : a ≠ []) :
    (joinOn sep (a :: rest)).head? = a.head? := by
  cases rest with
  | nil => rw [joinOn]
  | cons b t =>
    show (a ++ sep :: joinOn sep (b :: t)).head? = a.head?
    cases a with
    | nil => exact absurd rfl ha
    | cons c cs => rfl

theorem segmentsMatch_iff_forall₂ (ps ss : List Str) :
    segmentsMatch ps ss = true ↔
      List.Forall₂ (fun p s => isParamSeg s = true ∨ p = s) ps ss := by
  induction ps generalizing ss with
  | nil =>
    cases ss with
    | nil => simp [segmentsMatch]
    | cons s ss => simp [segmentsMatch]
  | cons p ps ih =>
    cases ss with
    | nil => simp [segmentsMatch]
    | cons s ss =>
      rw [segmentsMatch, Bool.and_eq_true, Bool.or_eq_true, ih]
      constructor
      · rintro ⟨h1, h2⟩
        refine List.Forall₂.cons ?_ h2
        rcases h1 with h | h
        · exact Or.inl h
        · exact Or.inr (by simpa using h)
      · intro hf
        rcases hf with _ | ⟨h1, h2⟩
        refine ⟨?_, h2⟩
        rcases h1 with h | h
        · exact Or.inl h
        · exact Or.inr (by simp [h])

/-! ## C9 — path matching and template-parameter substitution -/

/--
C9 counterexample: `a/b` (no leading slash) matches the template
`/\x7bx\x7d/b`, position 0 is a template parameter, and the empty string
contains no `/`; yet replacing segment 0 by the empty string yields `/b`,
which no longer matches the template — the substitution half of the claim
fails as stated.
-/
theorem pathMatchesSpec_substitution_cex :
    pathMatchesSpec (str "a/b") (str "/\x7bx\x7d/b") = true ∧
    (pathSegs (str "/\x7bx\x7d/b")).head? = some (str "\x7bx\x7d") ∧
    isParamSeg (str "\x7bx\x7d") = true ∧
    ('/' ∉ ([] : Str)) ∧
    replaceSegment (str "a/b") 0 [] = str "/b" ∧
    pathMatchesSpec (replaceSegment (str "a/b") 0 []) (str "/\x7bx\x7d/b") = false := by
  decide

theorem trimPrefixChar_of_head_ne (sep : Char) (s : Str) (h : s.head? ≠ some sep) :
    trimPrefixChar sep s = s := by
  cases s with
  | nil => rfl
  | cons c cs =>
    have hc : ¬c = sep := fun hcc => h (by rw [hcc]; rfl)
    simp [trimPrefixChar, hc]

theorem splitOn_head_of_ne (sep c : Char) (cs : Str) (hc : ¬c = sep) :
    ∃ s₀ rest, splitOn sep (c :: cs) = (c :: s₀) :: rest := by
  rw [splitOn, if_neg hc]
  rcases hr : splitOn sep cs with _ | ⟨s₀, rest⟩
  · exact absurd hr (splitOn_ne_nil _ _)
  · exact ⟨s₀, rest, rfl⟩

/--
C9 (amended): a concrete path matches a template exactly when their
slash-segment lists have equal length and every template segment is either
`\x7b…\x7d`-wrapped or equal to the corresponding concrete segment; and
substituting any non-`/` replacement at a template-parameter position
preserves the match **provided** the path starts with `/`, or the
replacement is non-empty, or the position is not the first segment (the
counterexample forces this proviso: an empty replacement at segment 0 of an
unanchored path creates a leading `/` that the trim step then consumes).
-/
theorem pathMatchesSpec_characterization_and_substitution :
    (∀ path specPath, pathMatchesSpec path specPath = true ↔
        ((pathSegs path).length = (pathSegs specPath).length ∧
         ∀ i (h₁ : i < (pathSegs path).length) (h₂ : i < (pathSegs specPath).length),
           isParamSeg ((pathSegs specPath).get ⟨i, h₂⟩) = true ∨
             (pathSegs path).get ⟨i, h₁⟩ = (pathSegs specPath).get ⟨i, h₂⟩)) ∧
    (∀ path specPath i s, pathMatchesSpec path specPath = true →
        ∀ h₂ : i < (pathSegs specPath).length,
        isParamSeg ((pathSegs specPath).get ⟨i, h₂⟩) = true →
        '/' ∉ s →
        (path.head? = some '/' ∨ s ≠ [] ∨ i ≠ 0) →
        pathMatchesSpec (replaceSegment path i s) specPath = true) := by
  have hchar : ∀ path specPath, pathMatchesSpec path specPath = true ↔
      ((pathSegs path).length = (pathSegs specPath).length ∧
       ∀ i (h₁ : i < (pathSegs path).length) (h₂ : i < (pathSegs specPath).length),
         isParamSeg ((pathSegs specPath).get ⟨i, h₂⟩) = true ∨
           (pathSegs path).get ⟨i, h₁⟩ = (pathSegs specPath).get ⟨i, h₂⟩) := by
    intro path specPath
    simp only [pathMatchesSpec, Bool.and_eq_true, decide_eq_true_eq]
    rw [segmentsMatch_iff_forall₂, List.forall₂_iff_get]
    tauto
  refine ⟨hchar, ?_⟩
  intro path specPath i s hm h₂ hw hs hguard
  rcases (hchar path specPath).mp hm with ⟨hlen, hrel⟩
  have h₁ : i < (pathSegs path).length := by omega
  have hnosep : ∀ seg ∈ (pathSegs path).set i s, '/' ∉ seg := by
    intro seg hseg
    rcases List.mem_or_eq_of_mem_set hseg with hmem | heq
    · exact splitOn_sep_not_mem '/' (trimPrefixChar '/' path) seg hmem
    · exact heq ▸ hs
  have hne' : (pathSegs path).set i s ≠ [] := by
    intro hnil
    have hlen0 : ((pathSegs path).set i s).length = 0 := by rw [hnil]; rfl
    rw [List.length_set] at hlen0
    exact splitOn_ne_nil '/' (trimPrefixChar '/' path)
      (List.eq_nil_of_length_eq_zero hlen0)
  have hjoined : splitOn '/' (joinOn '/' ((pathSegs path).set i s))
      = (pathSegs path).set i s :=
    splitOn_joinOn '/' _ hne' hnosep
  have hmain : pathSegs (replaceSegment path i s) = (pathSegs path).set i s := by
    rw [replaceSegment]
    by_cases hanch : path.head? = some '/'
    · rw [if_pos hanch]
      show pathSegs ('/' :: joinOn '/' ((pathSegs path).set i s)) = _
      rw [pathSegs]
      exact hjoined
    · rw [if_neg hanch]
      have hhead : (joinOn '/' ((pathSegs path).set i s)).head? ≠ some '/' := by
        by_cases hi : i = 0
        · have hsne : s ≠ [] := by
            rcases hguard with hg | hg | hg
            · exact absurd hg hanch
            · exact hg
            · exact absurd hi hg
          subst hi
          rcases hp : pathSegs path with _ | ⟨a0, rest0⟩
          · exact absurd hp (splitOn_ne_nil _ _)
          · rw [List.set_cons_zero, head?_joinOn_cons '/' s rest0 hsne]
            intro hcon
            cases s with
            | nil => exact hsne rfl
            | cons c cs =>
              have hc : c = '/' := by simpa using hcon
              exact hs (hc ▸ List.mem_cons_self c cs)
        · cases path with
          | nil =>
            exfalso
            have hone : (pathSegs ([] : Str)).length = 1 := by decide
            omega
          | cons c cs =>
            have hc : ¬c = '/' := by
              intro hcc
              exact hanch (by rw [hcc]; rfl)
            have htrim : trimPrefixChar '/' (c :: cs) = c :: cs := by
              simp [trimPrefixChar, hc]
            rcases splitOn_head_of_ne '/' c cs hc with ⟨s₀, rest, hsplit⟩
            have hsegs : pathSegs (c :: cs) = (c :: s₀) :: rest := by
              rw [pathSegs, htrim, hsplit]
            rcases Nat.exists_eq_succ_of_ne_zero hi with ⟨j, hj⟩
            have hset : (pathSegs (c :: cs)).set i s = (c :: s₀) :: rest.set j s := by
              rw [hsegs, hj]; rfl
            rw [hset, head?_joinOn_cons '/' (c :: s₀) _ (by simp)]
            simp [hc]
      rw [pathSegs, trimPrefixChar_of_head_ne '/' _ hhead]
      exact hjoined
  rw [hchar (replaceSegment path i s) specPath, hmain]
  refine ⟨by rw [List.length_set]; exact hlen, ?_⟩
  intro j hj₁ hj₂
  by_cases hji : j = i
  · subst hji
    exact Or.inl hw
  · have hj₁' : j < (pathSegs path).length := by
      rw [List.length_set] at hj₁
      exact hj₁
    have hget : ((pathSegs path).set i s).get ⟨j, hj₁⟩
        = (pathSegs path).get ⟨j, hj₁'⟩ := by
      simp only [List.get_eq_getElem]
      exact List.getElem_set_ne (fun h => hji h.symm) _
    rw [hget]
    exact hrel j hj₁' hj₂

/-- Witness for C9 (amended): substituting `abc` for the `5` of `/users/5`
at the parameter position of template `/users/\x7bid\x7d` still matches. -/
theorem pathMatchesSpec_substitution_witness :
    pathMatchesSpec (str "/users/5") (str "/users/\x7bid\x7d") = true ∧
    pathMatchesSpec (replaceSegment (str "/users/5") 1 (str "abc"))
        (str "/users/\x7bid\x7d") = true :=
  ⟨by decide,
   pathMatchesSpec_characterization_and_substitution.2
     (str "/users/5") (str "/users/\x7bid\x7d") 1 (str "abc")
     (by decide) (by decide) (by decide) (by decide)
     (Or.inl (by decide))⟩

/-! ## C8 — record-id generation -/

/--
C8 (code evaluated at the failing input): in the `generateID` of the earlier
proxy revision the "atomic counter" is function-local, so every id begins
`1-`, and the two ids produced by two successive calls whose 4 random bytes
coincide (here `00 00 00 00` twice) are identical — the generator does not
return a string different from all previously returned ones.
-/
theorem generateIDOld_duplicate_ids :
    (∀ randBytes, ∃ rest, generateIDOld randBytes = '1' :: '-' :: rest) ∧
    (∃ id, generateIDs [[0, 0, 0, 0], [0, 0, 0, 0]] = [id, id]) := by
  constructor
  · intro randBytes
    exact ⟨hexOfAscii (hexEncode randBytes), rfl⟩
  · exact ⟨str "1-3030303030303030", by decide⟩

/-! ### Lemmas about the pipeline -/

/-- Every branch past the size gate reports `sizeRejected = false`. -/
theorem afterValidation_not_sizeRejected (cfg : Config) (env : Env) (r : Request)
    (cip rb : Str) (lb : Bool) (wh : Headers) :
    (afterValidation cfg env r cip rb lb wh).effects.sizeRejected = false := by
  simp only [afterValidation]
  split
  · rfl
  · split
    · split <;> rfl
    · rfl

/-- The accumulator-invariant of the replay `ORDER BY timestamp DESC LIMIT 1`
fold: the result is drawn from the accumulator or the list and dominates
both in timestamp. -/
theorem pickLatest_go (l : List StoredRecord) (acc : Option StoredRecord) :
    ∀ rec,
      l.foldl pickStep acc = some rec →
      (acc = some rec ∨ rec ∈ l) ∧
      (∀ x ∈ l, x.timestamp ≤ rec.timestamp) ∧
      (∀ b, acc = some b → b.timestamp ≤ rec.timestamp) := by
  induction l generalizing acc with
  | nil =>
    intro rec h
    simp only [List.foldl_nil] at h
    exact ⟨Or.inl h, by simp, fun b hb => by rw [hb] at h; simp at h; rw [h]⟩
  | cons x xs ih =>
    intro rec h
    simp only [List.foldl_cons] at h
    rcases acc with _ | best
    · -- accumulator was empty: it becomes `some x`
      rw [show pickStep none x = some x from rfl] at h
      rcases ih (some x) rec h with ⟨h1, h2, h3⟩
      refine ⟨Or.inr ?_, ?_, ?_⟩
      · rcases h1 with h1 | h1
        · have hx : x = rec := by injection h1
          exact hx ▸ List.mem_cons_self x xs
        · exact List.mem_cons_of_mem x h1
      · intro y hy
        rcases List.mem_cons.mp hy with hy | hy
        · exact hy ▸ h3 x rfl
        · exact h2 y hy
      · intro b hb
        cases hb
    · rw [show pickStep (some best) x
          = if best.timestamp < x.timestamp then some x else some best from rfl] at h
      by_cases hcmp : best.timestamp < x.timestamp
      · rw [if_pos hcmp] at h
        rcases ih (some x) rec h with ⟨h1, h2, h3⟩
        refine ⟨Or.inr ?_, ?_, ?_⟩
        · rcases h1 with h1 | h1
          · have hx : x = rec := by injection h1
            exact hx ▸ List.mem_cons_self x xs
          · exact List.mem_cons_of_mem x h1
        · intro y hy
          rcases List.mem_cons.mp hy with hy | hy
          · exact hy ▸ h3 x rfl
          · exact h2 y hy
        · intro b hb
          have hbb : best = b := by injection hb
          subst hbb
          exact Nat.le_of_lt (Nat.lt_of_lt_of_le hcmp (h3 x rfl))
      · rw [if_neg hcmp] at h
        rcases ih (some best) rec h with ⟨h1, h2, h3⟩
        refine ⟨?_, ?_, ?_⟩
        · rcases h1 with h1 | h1
          · exact Or.inl h1
          · exact Or.inr (List.mem_cons_of_mem x h1)
        · intro y hy
          rcases List.mem_cons.mp hy with hy | hy
          · exact hy ▸ Nat.le_trans (Nat.le_of_not_lt hcmp) (h3 best rfl)
          · exact h2 y hy
        · exact h3

/-- `replayLookup` returns a matching record of maximal timestamp. -/
theorem replayLookup_spec (store : List StoredRecord) (m u : String)
    (rec : StoredRecord) (h : replayLookup store m u = some rec) :
    replayMatches rec m u = true ∧ rec ∈ store ∧
    ∀ x ∈ store, replayMatches x m u = true → x.timestamp ≤ rec.timestamp := by
  rcases pickLatest_go (store.filter (fun rc => replayMatches rc m u)) none rec h
    with ⟨h1, h2, _⟩
  have hmem : rec ∈ store.filter (fun rc => replayMatches rc m u) := by
    rcases h1 with h1 | h1
    · cases h1
    · exact h1
  refine ⟨@List.of_mem_filter _ (fun rc => replayMatches rc m u) rec store hmem,
    @List.mem_of_mem_filter _ (fun rc => replayMatches rc m u) rec store hmem,
    fun x hx hmx => h2 x (List.mem_filter.mpr ⟨hx, by simpa using hmx⟩)⟩

/-! ## C6 — the 413 size gate -/

/--
C6 counterexample: a chunked inbound request (`ContentLength = -1`) whose
actual body exceeds 32 MiB is not rejected — the handler forwards it and
relays the upstream 200, so the claim's "regardless of how the body length
is conveyed" fails on the code, which compares only the declared length.
-/
theorem chunked_oversized_not_rejected :
    maxRequestSize < chunkedBigReq.body.length ∧
    chunkedBigReq.contentLength = -1 ∧
    (handleHTTPRequest passCfg plainEnv chunkedBigReq).effects.sizeRejected = false ∧
    (handleHTTPRequest passCfg plainEnv chunkedBigReq).effects.upstreamContacted = true ∧
    (handleHTTPRequest passCfg plainEnv chunkedBigReq).response.status = 200 := by
  have hgen : ∀ b : Str,
      (handleHTTPRequest passCfg plainEnv
        { method := "POST", url := "/x", urlPath := str "/x", contentLength := -1,
          body := b, headers := [], remoteAddr := str "1.1.1.1:80" }).effects.sizeRejected
          = false ∧
      (handleHTTPRequest passCfg plainEnv
        { method := "POST", url := "/x", urlPath := str "/x", contentLength := -1,
          body := b, headers := [], remoteAddr := str "1.1.1.1:80" }).effects.upstreamContacted
          = true ∧
      (handleHTTPRequest passCfg plainEnv
        { method := "POST", url := "/x", urlPath := str "/x", contentLength := -1,
          body := b, headers := [], remoteAddr := str "1.1.1.1:80" }).response.status
          = 200 := by
    intro b
    refine ⟨?_, ?_, ?_⟩ <;>
      simp [handleHTTPRequest, afterValidation, passCfg, plainEnv, okUpstream,
        maxRequestSize, streamThreshold]
  have h := hgen (List.replicate (maxRequestSize + 1) 'a')
  refine ⟨?_, rfl, h.1, h.2.1, h.2.2⟩
  rw [show chunkedBigReq.body = List.replicate (maxRequestSize + 1) 'a' from rfl,
    List.length_replicate]
  exact Nat.lt_succ_self _

/--
C6 (amended): the handler rejects with 413, before any forwarding, lookup
or persistence, exactly those requests whose **declared** `ContentLength`
exceeds 32 MiB; requests within the declared limit (including chunked ones,
declared `-1`, of any actual size) are never size-rejected.
-/
theorem size_gate_on_declared_length (cfg : Config) (env : Env) (r : Request) :
    ((maxRequestSize : Int) < r.contentLength →
      (handleHTTPRequest cfg env r).response.status = 413 ∧
      (handleHTTPRequest cfg env r).response.body = str "Request too large" ++ ['\n'] ∧
      (handleHTTPRequest cfg env r).effects.upstreamContacted = false ∧
      (handleHTTPRequest cfg env r).effects.dbLookups = 0 ∧
      (handleHTTPRequest cfg env r).effects.savedRecord = none ∧
      (handleHTTPRequest cfg env r).effects.sizeRejected = true) ∧
    (r.contentLength ≤ (maxRequestSize : Int) →
      (handleHTTPRequest cfg env r).effects.sizeRejected = false) := by
  constructor
  · intro h
    rw [handleHTTPRequest, if_pos h]
    exact ⟨rfl, rfl, rfl, rfl, rfl, rfl⟩
  · intro h
    simp only [handleHTTPRequest, if_neg (not_lt.mpr h)]
    split
    · split
      · rfl
      · exact afterValidation_not_sizeRejected _ _ _ _ _ _ _
    · exact afterValidation_not_sizeRejected _ _ _ _ _ _ _

/-- Witness for C6 (amended): a declared 34 MiB request is rejected with
413 and nothing is forwarded or saved. -/
theorem size_gate_on_declared_length_witness :
    ((maxRequestSize : Int) < declaredBigReq.contentLength) ∧
    (handleHTTPRequest passCfg plainEnv declaredBigReq).response.status = 413 ∧
    (handleHTTPRequest passCfg plainEnv declaredBigReq).effects.upstreamContacted = false :=
  ⟨by decide,
   ((size_gate_on_declared_length passCfg plainEnv declaredBigReq).1 (by decide)).1,
   ((size_gate_on_declared_length passCfg plainEnv declaredBigReq).1 (by decide)).2.2.1⟩

/-! ## C4 — replay mode -/

/--
C4: in replay mode, once a request passes the size gate and request
validation, the handler performs exactly one store lookup — for the most
recent record with protocol `HTTP` matching the request's method and url —
contacts no upstream and persists nothing; a hit is served with the stored
status, headers (when the stored header JSON parses) and body; a miss
yields 404 with a `No matching replay record found` body; a store read
error yields 500.
-/
theorem replay_mode_behaviour (cfg : Config) (env : Env) (r : Request)
    (hreplay : cfg.replayMode = true)
    (hsize : r.contentLength ≤ (maxRequestSize : Int))
    (hval : env.requestValidationError = none) :
    (handleHTTPRequest cfg env r).effects.upstreamContacted = false ∧
    (handleHTTPRequest cfg env r).effects.dbLookups = 1 ∧
    (handleHTTPRequest cfg env r).effects.savedRecord = none ∧
    (env.dbFail = true → (handleHTTPRequest cfg env r).response.status = 500) ∧
    (env.dbFail = false → replayLookup env.store r.method r.url = none →
      (handleHTTPRequest cfg env r).response.status = 404 ∧
      (handleHTTPRequest cfg env r).response.body
        = str "No matching replay record found" ++ ['\n']) ∧
    (∀ rec, env.dbFail = false → replayLookup env.store r.method r.url = some rec →
      (handleHTTPRequest cfg env r).response.status = rec.responseStatus ∧
      (handleHTTPRequest cfg env r).response.body = rec.responseBody ∧
      (∀ hs, rec.responseHeaders = some hs →
        (handleHTTPRequest cfg env r).response.headers = hs) ∧
      rec.protocol = "HTTP" ∧ rec.method = r.method ∧ rec.url = r.url ∧
      rec ∈ env.store ∧
      (∀ x ∈ env.store, replayMatches x r.method r.url = true →
        x.timestamp ≤ rec.timestamp)) := by
  have hred : handleHTTPRequest cfg env r
      = { response := replayHTTPTraffic [] env.store env.dbFail r.method r.url,
          effects := { sizeRejected := false, upstreamContacted := false,
                       dbLookups := 1, savedRecord := none } } := by
    simp only [handleHTTPRequest, if_neg (not_lt.mpr hsize), hval, ite_self]
    simp only [afterValidation, hreplay, if_true]
  rw [hred]
  refine ⟨rfl, rfl, rfl, ?_, ?_, ?_⟩
  · intro hdb
    simp [replayHTTPTraffic, hdb, httpError]
  · intro hdb hmiss
    simp [replayHTTPTraffic, hdb, hmiss, httpError]
  · intro rec hdb hhit
    rcases replayLookup_spec env.store r.method r.url rec hhit with ⟨hmatch, hmem, hmax⟩
    have h1 : rec.protocol = "HTTP" ∧ rec.method = r.method ∧ rec.url = r.url := by
      simp only [replayMatches, Bool.and_eq_true, decide_eq_true_eq] at hmatch
      exact ⟨hmatch.1.1, hmatch.1.2, hmatch.2⟩
    refine ⟨?_, ?_, ?_, h1.1, h1.2.1, h1.2.2, hmem, hmax⟩
    · simp [replayHTTPTraffic, hdb, hhit]
    · simp [replayHTTPTraffic, hdb, hhit]
    · intro hs hhs
      simp [replayHTTPTraffic, hdb, hhit, hhs, hAddAll_eq_append]

/-- Witness for C4: against a store holding two `GET /x` records the more
recent one (timestamp 9, status 201, body `newer`) is served, with one
lookup and no upstream contact. -/
theorem replay_mode_behaviour_witness :
    replayCfg.replayMode = true ∧
    (handleHTTPRequest replayCfg replayEnv getXReq).effects.upstreamContacted = false ∧
    (handleHTTPRequest replayCfg replayEnv getXReq).effects.dbLookups = 1 ∧
    (handleHTTPRequest replayCfg replayEnv getXReq).response.status = 201 ∧
    (handleHTTPRequest replayCfg replayEnv getXReq).response.body = str "newer" :=
  ⟨rfl,
   (replay_mode_behaviour replayCfg replayEnv getXReq rfl (by decide) rfl).1,
   (replay_mode_behaviour replayCfg replayEnv getXReq rfl (by decide) rfl).2.1,
   by decide, by decide⟩

/-! ### Recorder invariants under a sequence of writes -/

theorem recWrite_statusCode (st : RecorderState) (b : Str) :
    (recWrite st b).statusCode = st.statusCode := by
  simp only [recWrite]
  split
  · split <;> rfl
  · rfl

theorem recWrite_header (st : RecorderState) (b : Str) :
    (recWrite st b).header = st.header := by
  simp only [recWrite]
  split
  · split <;> rfl
  · rfl

theorem recWrite_streamMode (st : RecorderState) (b : Str) :
    (recWrite st b).streamMode = st.streamMode := by
  simp only [recWrite]
  split
  · split <;> rfl
  · rfl

theorem recWrite_sent (st : RecorderState) (b : Str) :
    (recWrite st b).sent = st.sent ++ b := by
  simp only [recWrite]
  split
  · split <;> rfl
  · rfl

theorem foldl_recWrite_statusCode (l : List Str) (st : RecorderState) :
    (l.foldl recWrite st).statusCode = st.statusCode := by
  induction l generalizing st with
  | nil => rfl
  | cons c cs ih => rw [List.foldl_cons, ih, recWrite_statusCode]

theorem foldl_recWrite_header (l : List Str) (st : RecorderState) :
    (l.foldl recWrite st).header = st.header := by
  induction l generalizing st with
  | nil => rfl
  | cons c cs ih => rw [List.foldl_cons, ih, recWrite_header]

theorem foldl_recWrite_streamMode (l : List Str) (st : RecorderState) :
    (l.foldl recWrite st).streamMode = st.streamMode := by
  induction l generalizing st with
  | nil => rfl
  | cons c cs ih => rw [List.foldl_cons, ih, recWrite_streamMode]

theorem foldl_recWrite_sent (l : List Str) (st : RecorderState) :
    (l.foldl recWrite st).sent = st.sent ++ concatChunks l := by
  induction l generalizing st with
  | nil => simp [concatChunks]
  | cons c cs ih =>
    rw [List.foldl_cons, ih, recWrite_sent, concatChunks, List.append_assoc]

/-- Outside replay mode the handler always forwards, and the client sees
the upstream status, the full upstream body, and the writer headers plus
the upstream headers — whatever the recording and validation outcomes. -/
theorem afterValidation_response (cfg : Config) (env : Env) (r : Request)
    (cip rb : Str) (lb : Bool) (wh : Headers) (hnr : cfg.replayMode = false) :
    (afterValidation cfg env r cip rb lb wh).response.status = env.upstream.status ∧
    (afterValidation cfg env r cip rb lb wh).response.body
      = concatChunks env.upstream.bodyChunks ∧
    (afterValidation cfg env r cip rb lb wh).response.headers
      = hAddAll wh env.upstream.headers ∧
    (afterValidation cfg env r cip rb lb wh).effects.upstreamContacted = true := by
  refine ⟨?_, ?_, ?_, ?_⟩ <;>
  · simp only [afterValidation, hnr, Bool.false_eq_true, if_false]
    split
    · split <;>
        simp [foldl_recWrite_statusCode, foldl_recWrite_sent, foldl_recWrite_header]
    · simp

/-- In record mode (outside replay), when response validation runs and
fails, the persisted record's headers carry the `response` marker. -/
theorem afterValidation_record_marker (cfg : Config) (env : Env) (r : Request)
    (cip rb : Str) (wh : Headers) (hnr : cfg.replayMode = false)
    (hv : env.validatorPresent = true)
    (hvresp : cfg.apiValidation.validateResponses = true)
    (hfail : env.responseValidationFails = true) :
    ∀ rec, (afterValidation cfg env r cip rb false wh).effects.savedRecord = some rec →
      hGet rec.responseHeaders "X-API-Validation-Error" = str "response" := by
  intro rec hrec
  simp only [afterValidation, hnr, Bool.false_eq_true, if_false, hv, hvresp, hfail,
    Bool.true_and, Bool.and_true, Bool.or_true, if_true,
    foldl_recWrite_streamMode, Bool.not_false] at hrec
  split at hrec
  · have hrec' := hrec
    simp only [Option.some.injEq] at hrec'
    rw [← hrec']
    exact hGet_hSet_self _ _ _
  · cases hrec

/-! ## C5 — OpenAPI validation policy -/

/-- Under the stated hypotheses the handler reduces to `afterValidation`
with the request marker set (continue case) or with clean headers (no
validation error). -/
theorem handle_to_afterValidation (cfg : Config) (env : Env) (r : Request)
    (hsize : r.contentLength ≤ (maxRequestSize : Int))
    (hsmall : r.contentLength ≤ (streamThreshold : Int))
    (hv : env.validatorPresent = true)
    (hvr : cfg.apiValidation.validateRequests = true) :
    (∀ err, env.requestValidationError = some err →
      cfg.apiValidation.continueOnValidation = true →
      ∃ cip rb, handleHTTPRequest cfg env r
        = afterValidation cfg env r cip rb false
            (hSet [] "X-API-Validation-Error" (str "request"))) ∧
    (env.requestValidationError = none →
      ∃ cip rb, handleHTTPRequest cfg env r
        = afterValidation cfg env r cip rb false []) := by
  have hdec : decide ((streamThreshold : Int) < r.contentLength) = false :=
    decide_eq_false (not_lt.mpr hsmall)
  constructor
  · intro err herr hcont
    refine ⟨getClientIP ⟨r.headers, r.remoteAddr⟩,
      (if ((cfg.recordingMode
            || (env.validatorPresent && cfg.apiValidation.validateRequests))
           && decide (r.contentLength ≠ 0)) = true then
        if (streamThreshold : Int) < r.contentLength then
          sentinelReqBody r.contentLength
        else r.body.take maxRequestSize
      else []), ?_⟩
    simp only [handleHTTPRequest, if_neg (not_lt.mpr hsize), hv, hvr, herr, hcont, hdec,
      Bool.and_false, Bool.and_self, Bool.true_and, Bool.and_true, Bool.or_true,
      Bool.not_false, Bool.not_true, Bool.false_eq_true, if_false,
      eq_self_iff_true, if_true]
  · intro hnone
    refine ⟨getClientIP ⟨r.headers, r.remoteAddr⟩,
      (if ((cfg.recordingMode
            || (env.validatorPresent && cfg.apiValidation.validateRequests))
           && decide (r.contentLength ≠ 0)) = true then
        if (streamThreshold : Int) < r.contentLength then
          sentinelReqBody r.contentLength
        else r.body.take maxRequestSize
      else []), ?_⟩
    simp only [handleHTTPRequest, if_neg (not_lt.mpr hsize), hv, hvr, hnone, hdec,
      Bool.and_false, Bool.and_self, Bool.true_and, Bool.and_true, Bool.or_true,
      Bool.not_false, Bool.not_true, Bool.false_eq_true, if_false,
      eq_self_iff_true, if_true]

/--
C5: with request validation active and the body below the streaming
watermark, a request-phase validation failure yields an immediate 400
carrying the validation error, with nothing forwarded, looked up or
persisted, when `continue_on_fail` is false; when it is true the exchange
proceeds to the upstream and the client response carries
`X-API-Validation-Error: request`.  A response-phase validation failure
never alters the client-visible status or body (the upstream bytes are
already relayed) and stamps `X-API-Validation-Error: response` on the
persisted record's headers.
-/
theorem validation_policy (cfg : Config) (env : Env) (r : Request)
    (hsize : r.contentLength ≤ (maxRequestSize : Int))
    (hsmall : r.contentLength ≤ (streamThreshold : Int))
    (hv : env.validatorPresent = true)
    (hvr : cfg.apiValidation.validateRequests = true)
    (hnoreplay : cfg.replayMode = false) :
    (∀ err, env.requestValidationError = some err →
      cfg.apiValidation.continueOnValidation = false →
        (handleHTTPRequest cfg env r).response.status = 400 ∧
        (handleHTTPRequest cfg env r).response.body
          = str "Request validation error: " ++ err ++ ['\n'] ∧
        (handleHTTPRequest cfg env r).effects.upstreamContacted = false ∧
        (handleHTTPRequest cfg env r).effects.savedRecord = none ∧
        (handleHTTPRequest cfg env r).effects.dbLookups = 0) ∧
    (∀ err, env.requestValidationError = some err →
      cfg.apiValidation.continueOnValidation = true →
        (handleHTTPRequest cfg env r).effects.upstreamContacted = true ∧
        ("X-API-Validation-Error", str "request")
          ∈ (handleHTTPRequest cfg env r).response.headers) ∧
    ((env.requestValidationError = none ∨ cfg.apiValidation.continueOnValidation = true) →
      cfg.apiValidation.validateResponses = true →
      env.responseValidationFails = true →
        (handleHTTPRequest cfg env r).response.status = env.upstream.status ∧
        (handleHTTPRequest cfg env r).response.body
          = concatChunks env.upstream.bodyChunks ∧
        (∀ rec, (handleHTTPRequest cfg env r).effects.savedRecord = some rec →
          hGet rec.responseHeaders "X-API-Validation-Error" = str "response")) := by
  have hdec : decide ((streamThreshold : Int) < r.contentLength) = false :=
    decide_eq_false (not_lt.mpr hsmall)
  refine ⟨?_, ?_, ?_⟩
  · intro err herr hcont
    simp [handleHTTPRequest, if_neg (not_lt.mpr hsize), hv, hvr, herr, hcont, hdec,
      httpError, noEffects, List.append_assoc]
  · intro err herr hcont
    obtain ⟨cip, rb, heq⟩ :=
      (handle_to_afterValidation cfg env r hsize hsmall hv hvr).1 err herr hcont
    rw [heq]
    refine ⟨(afterValidation_response cfg env r cip rb false _ hnoreplay).2.2.2, ?_⟩
    rw [(afterValidation_response cfg env r cip rb false _ hnoreplay).2.2.1,
      hAddAll_eq_append]
    exact List.mem_append_left _ (by simp [hSet])
  · intro hpre hvresp hfail
    obtain ⟨cip, rb, heq⟩ :
        ∃ cip rb, handleHTTPRequest cfg env r
          = afterValidation cfg env r cip rb false
              (hSet [] "X-API-Validation-Error" (str "request"))
          ∨ handleHTTPRequest cfg env r = afterValidation cfg env r cip rb false [] := by
      rcases hreq : env.requestValidationError with _ | err
      · obtain ⟨cip, rb, h⟩ :=
          (handle_to_afterValidation cfg env r hsize hsmall hv hvr).2 hreq
        exact ⟨cip, rb, Or.inr h⟩
      · have hcont : cfg.apiValidation.continueOnValidation = true := by
          rcases hpre with h | h
          · rw [hreq] at h; cases h
          · exact h
        obtain ⟨cip, rb, h⟩ :=
          (handle_to_afterValidation cfg env r hsize hsmall hv hvr).1 err hreq hcont
        exact ⟨cip, rb, Or.inl h⟩
    rcases heq with heq | heq <;>
      · rw [heq]
        exact ⟨(afterValidation_response cfg env r cip rb false _ hnoreplay).1,
          (afterValidation_response cfg env r cip rb false _ hnoreplay).2.1,
          afterValidation_record_marker cfg env r cip rb _ hnoreplay hv hvresp hfail⟩

/-- Witness for C5: record mode with validation on and `continue_on_fail`
true, the request failing validation and the response failing validation:
the upstream is contacted, the client sees the `request` marker and the
stored record carries the `response` marker. -/
theorem validation_policy_witness :
    (handleHTTPRequest validatingCfg validationEnv getXReq).effects.upstreamContacted
      = true ∧
    ("X-API-Validation-Error", str "request")
      ∈ (handleHTTPRequest validatingCfg validationEnv getXReq).response.headers ∧
    (∀ rec,
      (handleHTTPRequest validatingCfg validationEnv getXReq).effects.savedRecord
        = some rec →
      hGet rec.responseHeaders "X-API-Validation-Error" = str "response") :=
  ⟨((validation_policy validatingCfg validationEnv getXReq (by decide) (by decide)
      rfl rfl rfl).2.1 (str "boom") rfl rfl).1,
   ((validation_policy validatingCfg validationEnv getXReq (by decide) (by decide)
      rfl rfl rfl).2.1 (str "boom") rfl rfl).2,
   ((validation_policy validatingCfg validationEnv getXReq (by decide) (by decide)
      rfl rfl rfl).2.2 (Or.inr rfl) rfl rfl).2.2⟩

/-! ## C1 — the streaming sentinel is never stored -/

/--
C1 (code evaluated at the failing input): in record mode, a 2 MiB upstream
response to a small request is relayed to the client in full, but the
persisted `response_body` is the buffered 1 MiB prefix — not the sentinel
`<streaming-response-size:N>` and not the bytes the client received.  The
recorder's `streamMode` is keyed to the **request** body size, and the
persistence guard `streamMode && body.Len() > streamThreshold` compares the
buffered length, which in stream mode never exceeds 1024 — so the sentinel
branch is unreachable and the claim fails on both sides of the watermark
dichotomy.
-/
theorem record_large_response_stores_prefix_not_sentinel :
    streamThreshold
        < (handleHTTPRequest recordCfg bigRespEnv getXReq).response.body.length ∧
    (handleHTTPRequest recordCfg bigRespEnv getXReq).response.body.length
      = 2 * 1024 * 1024 ∧
    ((handleHTTPRequest recordCfg bigRespEnv getXReq).effects.savedRecord.map
        (fun rec => rec.responseBody))
      = some (List.replicate streamThreshold 'a') ∧
    (∀ n, List.replicate streamThreshold 'a' ≠ sentinelRespBody n) ∧
    List.replicate streamThreshold 'a'
      ≠ (handleHTTPRequest recordCfg bigRespEnv getXReq).response.body := by
  have hgen : ∀ c : Str, c.length = streamThreshold →
      ((handleHTTPRequest recordCfg
          { validatorPresent := false, requestValidationError := none
            responseValidationFails := false, store := [], dbFail := false
            upstream := ⟨200, [], [c, c]⟩, recordID := "id-1", now := 7 }
          getXReq).response.body = c ++ c ∧
      ((handleHTTPRequest recordCfg
          { validatorPresent := false, requestValidationError := none
            responseValidationFails := false, store := [], dbFail := false
            upstream := ⟨200, [], [c, c]⟩, recordID := "id-1", now := 7 }
          getXReq).effects.savedRecord.map (fun rec => rec.responseBody)) = some c) := by
    intro c hc
    constructor <;>
      simp [handleHTTPRequest, afterValidation, recordCfg, getXReq, recWrite, hc,
        streamThreshold, maxRequestSize]
  have hrun :
      (handleHTTPRequest recordCfg bigRespEnv getXReq).response.body
        = List.replicate streamThreshold 'a' ++ List.replicate streamThreshold 'a' ∧
      ((handleHTTPRequest recordCfg bigRespEnv getXReq).effects.savedRecord.map
        (fun rec => rec.responseBody)) = some (List.replicate streamThreshold 'a') :=
    hgen (List.replicate streamThreshold 'a') (List.length_replicate _ _)
  have hlen : (List.replicate streamThreshold 'a'
      ++ List.replicate streamThreshold 'a').length = 2 * 1024 * 1024 := by
    rw [List.length_append, List.length_replicate]
    norm_num [streamThreshold]
  have hsent : ∀ n, List.replicate streamThreshold 'a' ≠ sentinelRespBody n := by
    intro n h
    have hh := congrArg List.head? h
    have hsentHead : (sentinelRespBody n).head? = some '<' := rfl
    rw [List.head?_replicate, hsentHead] at hh
    norm_num [streamThreshold] at hh
    exact absurd hh (by decide)
  refine ⟨?_, ?_, hrun.2, hsent, ?_⟩
  · rw [hrun.1, hlen]
    norm_num [streamThreshold]
  · rw [hrun.1, hlen]
  · intro h
    have hl := congrArg List.length h
    rw [hrun.1, hlen, List.length_replicate] at hl
    norm_num [streamThreshold] at hl

end Jarvis
